import Mathlib

/-!
Verification of the nasa_zeus fusion-pipeline specification against the
frontend source (`frontend/src/app/components/Map.tsx`,
`frontend/src/app/components/InfoPanel.tsx`).  Numeric code is embedded over
`ℝ` (the spec's round-trip property is stated "exactly over real
arithmetic"); discrete record processing is embedded computably over `ℚ`,
`ℤ`, `String` and lists.  JavaScript's `toFixed` display rounding (a
float-formatting step applied when vectors are pushed) is omitted from the
real-arithmetic embedding.
-/

/-- Provenance tag of a wind vector, from the TS union type
`source: "noaa" | "demo"` in `Map.tsx` (interface `WindVector`). -/
inductive Source where
  | noaa
  | demo
deriving DecidableEq

/-- Embeds the `WindVector` interface of `Map.tsx` (lines 198-206):
latitude, longitude, u/v components, derived speed and direction, and the
mandatory provenance tag. -/
structure WindVector where
  lat : ℝ
  lon : ℝ
  u : ℝ
  v : ℝ
  speed : ℝ
  direction : ℝ
  source : Source

/-- The `current` field of the NOAA wind payload as used by
`processWindVectors`: only `u_component` and `v_component` are read
(the payload's other fields are never used by the synthesizer). -/
structure NOAACurrent where
  u_component : ℝ
  v_component : ℝ

/-- JavaScript `Math.sqrt(u*u + v*v)` over real arithmetic
(`Map.tsx` line 421). -/
noncomputable def windSpeed (u v : ℝ) : ℝ :=
  Real.sqrt (u * u + v * v)

/-- JavaScript `Math.atan2(y, x)`: the argument of the point `(x, y)`,
in `(-π, π]`, embedded via `Complex.arg` (with `atan2 0 0 = 0`, as in JS). -/
noncomputable def atan2 (y x : ℝ) : ℝ :=
  Complex.arg ⟨x, y⟩

/-- JavaScript remainder `a % b` for the nonnegative dividends that occur in
`Map.tsx` (the dividend `deg + 360` is always positive there, where the
truncated JS remainder coincides with the floored remainder). -/
noncomputable def jsMod (a b : ℝ) : ℝ :=
  a - b * ⌊a / b⌋

/-- The direction computation of `Map.tsx` lines 422-423:
`((Math.atan2(u, v) * 180) / Math.PI + 360) % 360`. -/
noncomputable def windDirection (u v : ℝ) : ℝ :=
  jsMod (atan2 u v * 180 / Real.pi + 360) 360

/-- One grid cell of the model-derived synthesizer (`Map.tsx` lines
410-433): multiplicative jitter `base * (1 + (rand - 0.5) * 0.2)` applied to
each component, then derived speed and direction; tagged `"noaa"`.
`rU`/`rV` are the two `Math.random()` draws of that cell. -/
noncomputable def jitterCell (baseU baseV rU rV lat lon : ℝ) : WindVector :=
  let u := baseU * (1 + (rU - 0.5) * 0.2)
  let v := baseV * (1 + (rV - 0.5) * 0.2)
  { lat := lat
    lon := lon
    u := u
    v := v
    speed := windSpeed u v
    direction := windDirection u v
    source := Source.noaa }

/-- The model-derived Wind Field Synthesizer `processWindVectors` of
`Map.tsx` (lines 388-442): guard on `noaaData.current`, steps
`(north - south) / 11` and `(east - west) / 11`, and a 12×12 double loop
pushing one jittered cell per `(i, j)`.  The per-cell `Math.random()` draws
are supplied as the functions `randU randV : ℕ → ℕ → ℝ`. -/
noncomputable def processWindVectors (current : Option NOAACurrent)
    (north south east west : ℝ) (randU randV : ℕ → ℕ → ℝ) : List WindVector :=
  match current with
  | none => []
  | some cur =>
    let latStep := (north - south) / 11
    let lonStep := (east - west) / 11
    (List.range 12).flatMap fun i =>
      (List.range 12).map fun j =>
        jitterCell cur.u_component cur.v_component (randU i j) (randV i j)
          (south + i * latStep) (west + j * lonStep)

/-- A point of the `/api/wind-grid-demo` payload as consumed by the demo
branch of `fetchData` in `Map.tsx` (line 343): the spread `{...point}`
copies these numeric fields before the `"demo"` tag is attached. -/
structure DemoPoint where
  lat : ℝ
  lon : ℝ
  u : ℝ
  v : ℝ
  speed : ℝ
  direction : ℝ

/-- The demo branch of `fetchData` (`Map.tsx` lines 342-347):
`demoWindData.data.map(point => ({...point, source: "demo"}))`. -/
def tagDemo (points : List DemoPoint) : List WindVector :=
  points.map fun p =>
    { lat := p.lat
      lon := p.lon
      u := p.u
      v := p.v
      speed := p.speed
      direction := p.direction
      source := Source.demo }

/-- The last-resort client-side fallback of `fetchData` (`Map.tsx` lines
350-368): a 5×5 double loop pushing vectors at `40.6 + i*0.05`,
`-74.1 + j*0.05` with `u = rand*4 - 2`, `v = rand*4 - 2`,
`speed = rand*8 + 2`, `direction = rand*360`, all tagged `"demo"`.  The four
`Math.random()` draws of each iteration are the functions `rU rV rS rD`. -/
noncomputable def fallbackVectors (rU rV rS rD : ℕ → ℕ → ℝ) : List WindVector :=
  (List.range 5).flatMap fun (i : ℕ) =>
    (List.range 5).map fun (j : ℕ) =>
      { lat := 40.6 + (i : ℝ) * 0.05
        lon := -74.1 + (j : ℝ) * 0.05
        u := rU i j * 4 - 2
        v := rV i j * 4 - 2
        speed := rS i j * 8 + 2
        direction := rD i j * 360
        source := Source.demo }

/-- A constant zero random draw, used to instantiate witness statements. -/
def zeroDraw : ℕ → ℕ → ℝ :=
  fun _ _ => 0

/-- Sensor parameter metadata, from the `Station` interface of
`InfoPanel.tsx` (lines 14-21). -/
structure SensorParameter where
  id : ℤ
  name : String
  units : String
  displayName : String

/-- One sensor of a station (`InfoPanel.tsx` `Station.sensors` entries). -/
structure Sensor where
  parameter : SensorParameter

/-- The `datetimeLast` field of a station.  The TS field `local` is renamed
`localTime` because `local` is a Lean keyword. -/
structure DatetimeLast where
  utc : String
  localTime : String

/-- The `Station` interface shared by `InfoPanel.tsx` and `Map.tsx`
(coordinates and distance are unused by the embedded functions and
omitted). -/
structure Station where
  id : ℤ
  name : String
  sensors : List Sensor
  datetimeLast : DatetimeLast

/-- JavaScript `String.prototype.includes` for a nonempty pattern:
`s.includes(pat)` holds iff `pat` occurs as a substring, iff `splitOn`
produces at least two pieces. -/
def jsIncludes (s pat : String) : Bool :=
  decide ((s.splitOn pat).length ≥ 2)

/-- The per-sensor body of `getHighestPM25` (`InfoPanel.tsx` lines 54-65):
if the sensor's parameter name contains `"pm25"` or `"pm2.5"`
(lower-cased), the accumulator is updated with `Math.max(highestValue, 0)`
(the placeholder `0` is the value actually used by the code); otherwise it
is unchanged. -/
def sensorStep (acc : ℚ) (sensor : Sensor) : ℚ :=
  if jsIncludes sensor.parameter.name.toLower "pm25" ∨
      jsIncludes sensor.parameter.name.toLower "pm2.5" then
    max acc 0
  else
    acc

/-- The per-station body of `getHighestPM25` (`InfoPanel.tsx` lines 52-67):
guard on a nonempty sensor list, then fold over the sensors. -/
def stationStep (acc : ℚ) (st : Station) : ℚ :=
  if st.sensors.length > 0 then st.sensors.foldl sensorStep acc else acc

/-- `getHighestPM25` of `InfoPanel.tsx` (lines 47-70): `0` for an empty
station list, otherwise the fold of `stationStep` starting from `0`. -/
def getHighestPM25 (stations : List Station) : ℚ :=
  if stations.length = 0 then 0 else stations.foldl stationStep 0

/-- `getAirQualitySummary` of `InfoPanel.tsx` (lines 90-98). -/
def getAirQualitySummary (pm25Value : ℚ) : String :=
  if pm25Value = 0 then "No PM2.5 data available"
  else if pm25Value ≤ 12 then "Good"
  else if pm25Value ≤ 35.4 then "Moderate"
  else if pm25Value ≤ 55.4 then "Unhealthy for Sensitive Groups"
  else if pm25Value ≤ 150.4 then "Unhealthy"
  else if pm25Value ≤ 250.4 then "Very Unhealthy"
  else "Hazardous"

/-- The guard of the report modal's "Highest PM2.5 Reading" section
(`InfoPanel.tsx` line 608): rendered iff `highestPM25 > 0`. -/
def showsHighestSection (stations : List Station) : Bool :=
  decide (0 < getHighestPM25 stations)

/-- Milliseconds per day; both components' 30-day look-back
(`setDate(getDate() - 30)`) is modelled as `now - 30 * msPerDay`, the same
expression in both embeddings. -/
def msPerDay : ℤ :=
  86400000

/-- The `isActive` computation of `Map.tsx` (lines 949-954): parse
`station.datetimeLast.utc` (`parseDate` returning `none` models a JS
Invalid Date, whose comparisons are false) and compare strictly against
the reference time minus 30 days. -/
def mapIsActive (parseDate : String → Option ℤ) (now : ℤ) (st : Station) : Bool :=
  match parseDate st.datetimeLast.utc with
  | none => false
  | some t => decide (now - 30 * msPerDay < t)

/-- The predicate of `InfoPanel.tsx`'s `activeStations` filter (lines
117-122): textually the same computation as the one in `Map.tsx`. -/
def infoPanelIsActive (parseDate : String → Option ℤ) (now : ℤ) (st : Station) : Bool :=
  match parseDate st.datetimeLast.utc with
  | none => false
  | some t => decide (now - 30 * msPerDay < t)

/-- `activeStations` of `InfoPanel.tsx` (lines 117-122). -/
def activeStations (parseDate : String → Option ℤ) (now : ℤ)
    (stations : List Station) : List Station :=
  stations.filter (infoPanelIsActive parseDate now)

/-- Modelled from the spec: the backend decomposition of a forecast
(speed, direction) into components — the endpoint supplying `u_component`
and `v_component` is not under `src/` — as the spec words it:
`u = speed × sin(direction_radians)`, `v = speed × cos(direction_radians)`
(direction measured clockwise from north, meteorological convention). -/
noncomputable def decomposeWind (speed directionDeg : ℝ) : ℝ × ℝ :=
  (speed * Real.sin (directionDeg * Real.pi / 180),
   speed * Real.cos (directionDeg * Real.pi / 180))

/-- Modelled from the spec: the Feature Preparer's cyclic time encoding
(the backend feature-preparation code is not under `src/`):
`sin_hour = sin(2π × hour/24)`, `cos_hour = cos(2π × hour/24)`. -/
noncomputable def encodeHour (hour : ℝ) : ℝ × ℝ :=
  (Real.sin (2 * Real.pi * hour / 24), Real.cos (2 * Real.pi * hour / 24))

/-- Euclidean distance between two encoded feature points, used to compare
encodings geometrically as the spec's testable property asks. -/
noncomputable def featureDist (p q : ℝ × ℝ) : ℝ :=
  Real.sqrt ((p.1 - q.1) ^ 2 + (p.2 - q.2) ^ 2)

/-- Modelled from the spec: the Spatial Query Expander's ring of sub-query
centers (the backend overlapping-circles workaround behind
`/api/openaq-latest` is not under `src/`).  Ring `k ≥ 1` holds `7k` centers
offset from the target `c` at radius `k · maxR` — an inter-ring spacing of
`maxR`, "no larger than the max allowed radius" as the spec requires —
at evenly spaced angles. -/
noncomputable def ringCenters (c : ℂ) (maxR : ℝ) (k : ℕ) : List ℂ :=
  (List.range (7 * k)).map fun (m : ℕ) =>
    c + ((k * maxR : ℝ) : ℂ) *
      Complex.exp ((2 * Real.pi * m / (7 * k) : ℝ) * Complex.I)

/-- Modelled from the spec: the Spatial Query Expander.  If the desired
radius is within the source maximum, the single original query is returned
unchanged; otherwise the target disc is tiled by the target itself plus the
concentric rings `k = 1, …, ⌈R / maxR⌉` of sub-queries, each with
sub-radius `maxR` (a concentric-ring tiling with overlap, as the spec
allows). -/
noncomputable def expandQuery (c : ℂ) (R maxR : ℝ) : List (ℂ × ℝ) :=
  if R ≤ maxR then [(c, R)]
  else
    (c, maxR) :: (List.range (Nat.ceil (R / maxR))).flatMap fun k0 =>
      (ringCenters c maxR (k0 + 1)).map fun z => (z, maxR)

theorem sensorStep_zero (s : Sensor) : sensorStep 0 s = 0 := by
  unfold sensorStep
  split <;> simp

theorem foldl_sensorStep_zero (l : List Sensor) : l.foldl sensorStep 0 = 0 := by
  induction l with
  | nil => rfl
  | cons s l ih => rw [List.foldl_cons, sensorStep_zero, ih]

theorem stationStep_zero (st : Station) : stationStep 0 st = 0 := by
  unfold stationStep
  split
  · exact foldl_sensorStep_zero st.sensors
  · rfl

theorem foldl_stationStep_zero (l : List Station) : l.foldl stationStep 0 = 0 := by
  induction l with
  | nil => rfl
  | cons st l ih => rw [List.foldl_cons, stationStep_zero, ih]

/-- C9: for every input list of stations, `getHighestPM25` returns `0`
(its accumulator is only ever updated with `max acc 0` starting from `0`),
so `getAirQualitySummary` of it is always `"No PM2.5 data available"` and
the report's "Highest PM2.5 Reading" section (guarded by
`highestPM25 > 0`) is never rendered. -/
theorem highest_pm25_always_zero (stations : List Station) :
    getHighestPM25 stations = 0 ∧
    getAirQualitySummary (getHighestPM25 stations) = "No PM2.5 data available" ∧
    showsHighestSection stations = false := by
  have h0 : getHighestPM25 stations = 0 := by
    unfold getHighestPM25
    split
    · rfl
    · exact foldl_stationStep_zero stations
  refine ⟨h0, ?_, ?_⟩
  · rw [h0]
    rfl
  · unfold showsHighestSection
    rw [h0]
    rfl

/-- C10: `Map.tsx` and `InfoPanel.tsx` classify station activity with the
same predicate — as pure functions of the date parser, the reference time
and the station, the two are equal; and the common predicate holds iff
`datetimeLast.utc` parses to an instant strictly later than 30 days before
the reference time.  `activeStations` is exactly the filter by that
predicate. -/
theorem station_active_classification_agree :
    (∀ (parseDate : String → Option ℤ) (now : ℤ) (st : Station),
      mapIsActive parseDate now st = infoPanelIsActive parseDate now st) ∧
    (∀ (parseDate : String → Option ℤ) (now : ℤ) (st : Station),
      mapIsActive parseDate now st = true ↔
        ∃ t, parseDate st.datetimeLast.utc = some t ∧ now - 30 * msPerDay < t) ∧
    (∀ (parseDate : String → Option ℤ) (now : ℤ) (stations : List Station),
      activeStations parseDate now stations =
        stations.filter (mapIsActive parseDate now)) := by
  refine ⟨fun _ _ _ => rfl, fun parseDate now st => ?_, fun _ _ _ => rfl⟩
  unfold mapIsActive
  cases h : parseDate st.datetimeLast.utc with
  | none => simp
  | some t => simp

theorem jsMod_eq_fract (a : ℝ) {b : ℝ} (hb : b ≠ 0) :
    jsMod a b = b * Int.fract (a / b) := by
  unfold jsMod
  rw [Int.fract, mul_sub]
  congr 1
  field_simp

theorem jsMod_nonneg_lt (a : ℝ) {b : ℝ} (hb : 0 < b) :
    0 ≤ jsMod a b ∧ jsMod a b < b := by
  rw [jsMod_eq_fract a hb.ne']
  refine ⟨mul_nonneg hb.le (Int.fract_nonneg _), ?_⟩
  calc b * Int.fract (a / b) < b * 1 :=
        mul_lt_mul_of_pos_left (Int.fract_lt_one _) hb
    _ = b := mul_one b

theorem jsMod_eq_self (a : ℝ) {b : ℝ} (h0 : 0 ≤ a) (hab : a < b) :
    jsMod a b = a := by
  have hb : 0 < b := lt_of_le_of_lt h0 hab
  unfold jsMod
  have hfl : ⌊a / b⌋ = 0 := by
    rw [Int.floor_eq_zero_iff]
    exact ⟨div_nonneg h0 hb.le, (div_lt_one hb).2 hab⟩
  rw [hfl]
  simp

theorem jsMod_add_cancel (a : ℝ) {b : ℝ} (hb : b ≠ 0) :
    jsMod (a + b) b = jsMod a b := by
  unfold jsMod
  have hdiv : (a + b) / b = a / b + 1 := by field_simp
  rw [hdiv, Int.floor_add_one]
  push_cast
  ring

theorem windDirection_nonneg_lt (u v : ℝ) :
    0 ≤ windDirection u v ∧ windDirection u v < 360 :=
  jsMod_nonneg_lt _ (by norm_num)

theorem mem_processWindVectors {cur : NOAACurrent} {north south east west : ℝ}
    {rU rV : ℕ → ℕ → ℝ} {x : WindVector} :
    x ∈ processWindVectors (some cur) north south east west rU rV ↔
      ∃ i, i < 12 ∧ ∃ j, j < 12 ∧
        jitterCell cur.u_component cur.v_component (rU i j) (rV i j)
          (south + i * ((north - south) / 11)) (west + j * ((east - west) / 11)) = x := by
  simp only [processWindVectors, List.mem_flatMap, List.mem_map, List.mem_range]

theorem jitterCell_mem_processWindVectors (cur : NOAACurrent)
    (north south east west : ℝ) (rU rV : ℕ → ℕ → ℝ) (i j : ℕ)
    (hi : i < 12) (hj : j < 12) :
    jitterCell cur.u_component cur.v_component (rU i j) (rV i j)
        (south + i * ((north - south) / 11)) (west + j * ((east - west) / 11)) ∈
      processWindVectors (some cur) north south east west rU rV :=
  mem_processWindVectors.2 ⟨i, hi, j, hj, rfl⟩

/-- C1: every cell of the model-derived wind grid carries derived speed
`sqrt(u² + v²)` (hence non-negative) and derived direction
`atan2(u, v)` in degrees normalized into `[0, 360)`, where `u`, `v` are the
jittered components stored in the same cell. -/
theorem wind_cell_speed_direction (cur : NOAACurrent) (north south east west : ℝ)
    (rU rV : ℕ → ℕ → ℝ) (x : WindVector)
    (hx : x ∈ processWindVectors (some cur) north south east west rU rV) :
    x.speed = Real.sqrt (x.u * x.u + x.v * x.v) ∧ 0 ≤ x.speed ∧
    x.direction = jsMod (atan2 x.u x.v * 180 / Real.pi + 360) 360 ∧
    0 ≤ x.direction ∧ x.direction < 360 := by
  rcases mem_processWindVectors.1 hx with ⟨i, hi, j, hj, rfl⟩
  exact ⟨rfl, Real.sqrt_nonneg _, rfl, (windDirection_nonneg_lt _ _).1,
    (windDirection_nonneg_lt _ _).2⟩

/-- Witness for C1 at a concrete cell of a concrete grid. -/
theorem wind_cell_speed_direction_witness :
    (jitterCell 3 4 0 0 0 0).speed =
      Real.sqrt ((jitterCell 3 4 0 0 0 0).u * (jitterCell 3 4 0 0 0 0).u +
        (jitterCell 3 4 0 0 0 0).v * (jitterCell 3 4 0 0 0 0).v) ∧
    0 ≤ (jitterCell 3 4 0 0 0 0).speed ∧
    (jitterCell 3 4 0 0 0 0).direction =
      jsMod (atan2 (jitterCell 3 4 0 0 0 0).u (jitterCell 3 4 0 0 0 0).v * 180 /
        Real.pi + 360) 360 ∧
    0 ≤ (jitterCell 3 4 0 0 0 0).direction ∧
    (jitterCell 3 4 0 0 0 0).direction < 360 :=
  wind_cell_speed_direction ⟨3, 4⟩ 11 0 11 0 zeroDraw zeroDraw _ (by
    simpa [zeroDraw] using
      jitterCell_mem_processWindVectors ⟨3, 4⟩ 11 0 11 0 zeroDraw zeroDraw 0 0
        (by norm_num) (by norm_num))

theorem mem_fallbackVectors {rU rV rS rD : ℕ → ℕ → ℝ} {x : WindVector} :
    x ∈ fallbackVectors rU rV rS rD ↔
      ∃ i : ℕ, i < 5 ∧ ∃ j : ℕ, j < 5 ∧
        ({ lat := 40.6 + (i : ℝ) * 0.05
           lon := -74.1 + (j : ℝ) * 0.05
           u := rU i j * 4 - 2
           v := rV i j * 4 - 2
           speed := rS i j * 8 + 2
           direction := rD i j * 360
           source := Source.demo } : WindVector) = x := by
  simp only [fallbackVectors, List.mem_flatMap, List.mem_map, List.mem_range]

/-- C4: every wind vector emitted by any of the three synthesis sites
carries its provenance tag: `"noaa"` for model-derived vectors, `"demo"`
both for demo-endpoint vectors and for the client-side fallback vectors. -/
theorem wind_provenance_tagged :
    (∀ (current : Option NOAACurrent) (north south east west : ℝ)
        (rU rV : ℕ → ℕ → ℝ),
      ∀ x ∈ processWindVectors current north south east west rU rV,
        x.source = Source.noaa) ∧
    (∀ points : List DemoPoint, ∀ x ∈ tagDemo points, x.source = Source.demo) ∧
    (∀ rU rV rS rD : ℕ → ℕ → ℝ, ∀ x ∈ fallbackVectors rU rV rS rD,
      x.source = Source.demo) := by
  refine ⟨?_, ?_, ?_⟩
  · rintro (_ | cur) north south east west rU rV x hx
    · simp [processWindVectors] at hx
    · rcases mem_processWindVectors.1 hx with ⟨i, _, j, _, rfl⟩
      rfl
  · intro points x hx
    rcases List.mem_map.1 hx with ⟨p, _, rfl⟩
    rfl
  · intro rU rV rS rD x hx
    rcases mem_fallbackVectors.1 hx with ⟨i, _, j, _, rfl⟩
    rfl

/-- Witness for C4 at a concrete emitted vector. -/
theorem wind_provenance_tagged_witness :
    (jitterCell 3 4 0 0 0 0).source = Source.noaa :=
  wind_provenance_tagged.1 (some ⟨3, 4⟩) 11 0 11 0 zeroDraw zeroDraw _ (by
    simpa [zeroDraw] using
      jitterCell_mem_processWindVectors ⟨3, 4⟩ 11 0 11 0 zeroDraw zeroDraw 0 0
        (by norm_num) (by norm_num))

/-- C5: for every bounding box with `south < north`, `west < east`, the
model-derived synthesizer emits exactly 144 vectors, all with latitude in
`[south, north]` and longitude in `[west, east]`. -/
theorem wind_grid_count_and_bounds (cur : NOAACurrent)
    (north south east west : ℝ) (rU rV : ℕ → ℕ → ℝ)
    (hns : south < north) (hwe : west < east) :
    (processWindVectors (some cur) north south east west rU rV).length = 144 ∧
    ∀ x ∈ processWindVectors (some cur) north south east west rU rV,
      south ≤ x.lat ∧ x.lat ≤ north ∧ west ≤ x.lon ∧ x.lon ≤ east := by
  constructor
  · rfl
  · intro x hx
    rcases mem_processWindVectors.1 hx with ⟨i, hi, j, hj, rfl⟩
    have hi11 : (i : ℝ) ≤ 11 := by exact_mod_cast Nat.lt_succ_iff.mp hi
    have hj11 : (j : ℝ) ≤ 11 := by exact_mod_cast Nat.lt_succ_iff.mp hj
    have hi0 : (0 : ℝ) ≤ (i : ℝ) := Nat.cast_nonneg i
    have hj0 : (0 : ℝ) ≤ (j : ℝ) := Nat.cast_nonneg j
    have hlatStep : (0 : ℝ) ≤ (north - south) / 11 := by
      apply div_nonneg (by linarith) (by norm_num)
    have hlonStep : (0 : ℝ) ≤ (east - west) / 11 := by
      apply div_nonneg (by linarith) (by norm_num)
    have hlat1 : (0 : ℝ) ≤ (i : ℝ) * ((north - south) / 11) :=
      mul_nonneg hi0 hlatStep
    have hlat2 : (i : ℝ) * ((north - south) / 11) ≤ 11 * ((north - south) / 11) :=
      mul_le_mul_of_nonneg_right hi11 hlatStep
    have hlon1 : (0 : ℝ) ≤ (j : ℝ) * ((east - west) / 11) :=
      mul_nonneg hj0 hlonStep
    have hlon2 : (j : ℝ) * ((east - west) / 11) ≤ 11 * ((east - west) / 11) :=
      mul_le_mul_of_nonneg_right hj11 hlonStep
    have heq1 : (11 : ℝ) * ((north - south) / 11) = north - south := by ring
    have heq2 : (11 : ℝ) * ((east - west) / 11) = east - west := by ring
    refine ⟨?_, ?_, ?_, ?_⟩ <;>
      simp only [jitterCell] <;> linarith

/-- Witness for C5 at a concrete bounding box. -/
theorem wind_grid_count_and_bounds_witness :
    (processWindVectors (some ⟨3, 4⟩) 11 0 11 0 zeroDraw zeroDraw).length = 144 :=
  (wind_grid_count_and_bounds ⟨3, 4⟩ 11 0 11 0 zeroDraw zeroDraw
    (by norm_num) (by norm_num)).1

/-- C6: whenever each `Math.random()` draw lies in `[0, 1)`, the jittered
components of every emitted model-derived vector stay within ±20% of the
base components: `|u − baseU| ≤ 0.2·|baseU|` and `|v − baseV| ≤ 0.2·|baseV|`
(the code's factor `(rand − 0.5) * 0.2` in fact stays within ±10%). -/
theorem wind_jitter_within_twenty_percent (cur : NOAACurrent)
    (north south east west : ℝ) (rU rV : ℕ → ℕ → ℝ)
    (hU : ∀ i j, 0 ≤ rU i j ∧ rU i j < 1)
    (hV : ∀ i j, 0 ≤ rV i j ∧ rV i j < 1) :
    ∀ x ∈ processWindVectors (some cur) north south east west rU rV,
      |x.u - cur.u_component| ≤ 0.2 * |cur.u_component| ∧
      |x.v - cur.v_component| ≤ 0.2 * |cur.v_component| := by
  intro x hx
  rcases mem_processWindVectors.1 hx with ⟨i, _, j, _, rfl⟩
  have key : ∀ (base r : ℝ), 0 ≤ r → r < 1 →
      |base * (1 + (r - 0.5) * 0.2) - base| ≤ 0.2 * |base| := by
    intro base r hr0 hr1
    have hrw : base * (1 + (r - 0.5) * 0.2) - base = base * ((r - 0.5) * 0.2) := by
      ring
    rw [hrw, abs_mul]
    have hfac : |(r - 0.5) * 0.2| ≤ 0.2 := by
      rw [abs_mul]
      have h5 : |r - 0.5| ≤ 0.5 := abs_le.2 ⟨by linarith, by linarith⟩
      have h2 : |(0.2 : ℝ)| = 0.2 := by norm_num [abs_of_nonneg]
      rw [h2]
      nlinarith [abs_nonneg (r - 0.5)]
    calc |base| * |(r - 0.5) * 0.2| ≤ |base| * 0.2 :=
          mul_le_mul_of_nonneg_left hfac (abs_nonneg base)
      _ = 0.2 * |base| := mul_comm _ _
  exact ⟨key cur.u_component (rU i j) (hU i j).1 (hU i j).2,
    key cur.v_component (rV i j) (hV i j).1 (hV i j).2⟩

/-- Witness for C6 at a concrete grid and cell. -/
theorem wind_jitter_within_twenty_percent_witness :
    |(jitterCell 3 4 0 0 0 0).u - (3 : ℝ)| ≤ 0.2 * |(3 : ℝ)| ∧
    |(jitterCell 3 4 0 0 0 0).v - (4 : ℝ)| ≤ 0.2 * |(4 : ℝ)| :=
  wind_jitter_within_twenty_percent ⟨3, 4⟩ 11 0 11 0 zeroDraw zeroDraw
    (fun _ _ => by simp [zeroDraw]) (fun _ _ => by simp [zeroDraw]) _ (by
      simpa [zeroDraw] using
        jitterCell_mem_processWindVectors ⟨3, 4⟩ 11 0 11 0 zeroDraw zeroDraw 0 0
          (by norm_num) (by norm_num))

/-- Counterexample for C3: the client-side fallback branch of `fetchData`
generates a 5×5 grid of 25 vectors, not the 12×12 = 144 grid shape of the
model-derived mode. -/
theorem fallback_grid_shape_counterexample :
    (fallbackVectors zeroDraw zeroDraw zeroDraw zeroDraw).length = 25 ∧
    (processWindVectors (some ⟨3, 4⟩) 40.9 40.5 (-73.7) (-74.3)
        zeroDraw zeroDraw).length = 144 ∧
    (25 : ℕ) ≠ 144 := by
  exact ⟨rfl, rfl, by decide⟩

/-- C3 as amended: the demo-endpoint branch tags every received vector
`"demo"`; the last-resort client-side fallback generates a 5×5 grid of 25
vectors (not the model-derived 12×12 shape) with `u` and `v` independently
randomized in `[-2, 2)` (when the draws lie in `[0, 1)`), every generated
vector tagged `"demo"`. -/
theorem fallback_grid_properties (rU rV rS rD : ℕ → ℕ → ℝ)
    (hU : ∀ i j, 0 ≤ rU i j ∧ rU i j < 1)
    (hV : ∀ i j, 0 ≤ rV i j ∧ rV i j < 1) :
    (fallbackVectors rU rV rS rD).length = 25 ∧
    (∀ x ∈ fallbackVectors rU rV rS rD, x.source = Source.demo ∧
      -2 ≤ x.u ∧ x.u < 2 ∧ -2 ≤ x.v ∧ x.v < 2) ∧
    (∀ points : List DemoPoint, ∀ x ∈ tagDemo points, x.source = Source.demo) := by
  refine ⟨rfl, ?_, ?_⟩
  · intro x hx
    rcases mem_fallbackVectors.1 hx with ⟨i, _, j, _, rfl⟩
    have hu := hU i j
    have hv := hV i j
    exact ⟨rfl, by simp only; linarith [hu.1], by simp only; linarith [hu.2],
      by simp only; linarith [hv.1], by simp only; linarith [hv.2]⟩
  · intro points x hx
    rcases List.mem_map.1 hx with ⟨p, _, rfl⟩
    rfl

/-- Witness for C3's amended theorem at concrete draws. -/
theorem fallback_grid_properties_witness :
    (fallbackVectors zeroDraw zeroDraw zeroDraw zeroDraw).length = 25 :=
  (fallback_grid_properties zeroDraw zeroDraw zeroDraw zeroDraw
    (fun _ _ => by simp [zeroDraw]) (fun _ _ => by simp [zeroDraw])).1

theorem atan2_polar {s θ : ℝ} (hs : 0 < s) (hneg : -Real.pi < θ)
    (hle : θ ≤ Real.pi) :
    atan2 (s * Real.sin θ) (s * Real.cos θ) = θ := by
  unfold atan2
  have hmk : (⟨s * Real.cos θ, s * Real.sin θ⟩ : ℂ) =
      (s : ℂ) * (Complex.cos (θ : ℂ) + Complex.sin (θ : ℂ) * Complex.I) := by
    rw [← Complex.ofReal_cos, ← Complex.ofReal_sin, Complex.mk_eq_add_mul_I]
    push_cast
    ring
  rw [hmk, Complex.arg_real_mul _ hs,
    Complex.arg_cos_add_sin_mul_I (Set.mem_Ioc.2 ⟨hneg, hle⟩)]

/-- Counterexample for C2: at speed `s = 0` and direction `d = 90`, the
decomposition gives `u = v = 0` and the synthesizer's re-derived direction
is `0`, not the original `90` (only the speed is recovered). -/
theorem wind_round_trip_zero_speed_counterexample :
    windSpeed (decomposeWind 0 90).1 (decomposeWind 0 90).2 = 0 ∧
    windDirection (decomposeWind 0 90).1 (decomposeWind 0 90).2 = 0 ∧
    (0 : ℝ) ≠ 90 := by
  have h1 : (decomposeWind 0 90).1 = 0 := by
    simp [decomposeWind]
  have h2 : (decomposeWind 0 90).2 = 0 := by
    simp [decomposeWind]
  rw [h1, h2]
  refine ⟨?_, ?_, by norm_num⟩
  · unfold windSpeed
    simp
  · unfold windDirection atan2
    have h0 : (⟨(0 : ℝ), (0 : ℝ)⟩ : ℂ) = 0 := by
      apply Complex.ext <;> simp
    rw [h0, Complex.arg_zero, zero_mul, zero_div, zero_add]
    have hsplit : (360 : ℝ) = 0 + 360 := by norm_num
    nth_rewrite 1 [hsplit]
    rw [jsMod_add_cancel 0 (show (360 : ℝ) ≠ 0 by norm_num)]
    exact jsMod_eq_self 0 le_rfl (by norm_num)

/-- C2 as amended: for every speed `s > 0` and direction `d ∈ [0, 360)`,
decomposing into `u = s·sin(d·π/180)`, `v = s·cos(d·π/180)` and re-deriving
speed and direction with the synthesizer's formulas recovers `s` and `d`
exactly over real arithmetic (at `s = 0` the re-derived direction collapses
to `0`, so the original claim's `s ≥ 0` must be strengthened to `s > 0` for
the direction half; the speed half holds for all `s ≥ 0`). -/
theorem wind_round_trip_pos_speed (s d : ℝ) (hs : 0 < s) (hd0 : 0 ≤ d)
    (hd : d < 360) :
    windSpeed (decomposeWind s d).1 (decomposeWind s d).2 = s ∧
    windDirection (decomposeWind s d).1 (decomposeWind s d).2 = d := by
  have hpi : (0 : ℝ) < Real.pi := Real.pi_pos
  have hpi0 : Real.pi ≠ 0 := Real.pi_ne_zero
  have h360 : (360 : ℝ) ≠ 0 := by norm_num
  have h1 : (decomposeWind s d).1 = s * Real.sin (d * Real.pi / 180) := rfl
  have h2 : (decomposeWind s d).2 = s * Real.cos (d * Real.pi / 180) := rfl
  rw [h1, h2]
  constructor
  · unfold windSpeed
    have hsq : s * Real.sin (d * Real.pi / 180) * (s * Real.sin (d * Real.pi / 180)) +
        s * Real.cos (d * Real.pi / 180) * (s * Real.cos (d * Real.pi / 180)) =
        s ^ 2 := by
      nlinarith [Real.sin_sq_add_cos_sq (d * Real.pi / 180)]
    rw [hsq, Real.sqrt_sq hs.le]
  · unfold windDirection
    by_cases hcase : d ≤ 180
    · have harg : atan2 (s * Real.sin (d * Real.pi / 180))
          (s * Real.cos (d * Real.pi / 180)) = d * Real.pi / 180 := by
        apply atan2_polar hs
        · nlinarith [mul_nonneg hd0 hpi.le]
        · nlinarith [mul_le_mul_of_nonneg_right hcase hpi.le]
      rw [harg]
      have hdeg : d * Real.pi / 180 * 180 / Real.pi = d := by
        field_simp
      rw [hdeg, jsMod_add_cancel d h360]
      exact jsMod_eq_self d hd0 hd
    · push_neg at hcase
      rw [(Real.sin_sub_two_pi (d * Real.pi / 180)).symm,
        (Real.cos_sub_two_pi (d * Real.pi / 180)).symm]
      have harg : atan2 (s * Real.sin (d * Real.pi / 180 - 2 * Real.pi))
          (s * Real.cos (d * Real.pi / 180 - 2 * Real.pi)) =
          d * Real.pi / 180 - 2 * Real.pi := by
        apply atan2_polar hs
        · nlinarith [mul_lt_mul_of_pos_right hcase hpi]
        · nlinarith [mul_le_mul_of_nonneg_right hd.le hpi.le]
      rw [harg]
      have hdeg : (d * Real.pi / 180 - 2 * Real.pi) * 180 / Real.pi + 360 = d := by
        field_simp
        ring
      rw [hdeg]
      exact jsMod_eq_self d hd0 hd

/-- Witness for C2's amended theorem at speed `2`, direction `90`. -/
theorem wind_round_trip_pos_speed_witness :
    windSpeed (decomposeWind 2 90).1 (decomposeWind 2 90).2 = 2 ∧
    windDirection (decomposeWind 2 90).1 (decomposeWind 2 90).2 = 90 :=
  wind_round_trip_pos_speed 2 90 (by norm_num) (by norm_num) (by norm_num)

/-- C8: the sin/cos-encoded feature distance between hour 23 and hour 0 is
strictly smaller than the distance between hour 0 and hour 12 (the
wrap-around property of the cyclic encoding). -/
theorem cyclic_hour_encoding_wraparound :
    featureDist (encodeHour 23) (encodeHour 0) <
      featureDist (encodeHour 0) (encodeHour 12) := by
  have hpi := Real.pi_pos
  have h0s : Real.sin (2 * Real.pi * 0 / 24) = 0 := by
    rw [show 2 * Real.pi * 0 / 24 = 0 by ring, Real.sin_zero]
  have h0c : Real.cos (2 * Real.pi * 0 / 24) = 1 := by
    rw [show 2 * Real.pi * 0 / 24 = 0 by ring, Real.cos_zero]
  have h12 : 2 * Real.pi * 12 / 24 = Real.pi := by ring
  have hcos23 : Real.cos (2 * Real.pi * 23 / 24) = Real.cos (Real.pi / 12) := by
    rw [show 2 * Real.pi * 23 / 24 = -(Real.pi / 12) + 2 * Real.pi by ring,
      Real.cos_add_two_pi, Real.cos_neg]
  have hcospos : 0 < Real.cos (Real.pi / 12) :=
    Real.cos_pos_of_mem_Ioo ⟨by nlinarith, by nlinarith⟩
  simp only [featureDist, encodeHour]
  rw [h0s, h0c, h12, Real.sin_pi, Real.cos_pi]
  have hrhs : Real.sqrt (((0 : ℝ) - 0) ^ 2 + (1 - -1) ^ 2) = 2 := by
    rw [show ((0 : ℝ) - 0) ^ 2 + (1 - -1) ^ 2 = 2 ^ 2 by norm_num]
    exact Real.sqrt_sq (by norm_num)
  rw [hrhs, Real.sqrt_lt' (by norm_num : (0 : ℝ) < 2)]
  nlinarith [Real.sin_sq_add_cos_sq (2 * Real.pi * 23 / 24), hcos23, hcospos]

theorem abs_exp_mul_I_sub_one_le (x : ℝ) :
    Complex.abs (Complex.exp ((x : ℝ) * Complex.I) - 1) ≤ |x| := by
  have hsq : Complex.abs (Complex.exp ((x : ℝ) * Complex.I) - 1) ^ 2 =
      2 - 2 * Real.cos x := by
    rw [Complex.sq_abs, Complex.normSq_apply]
    simp only [Complex.sub_re, Complex.sub_im, Complex.exp_ofReal_mul_I_re,
      Complex.exp_ofReal_mul_I_im, Complex.one_re, Complex.one_im]
    nlinarith [Real.sin_sq_add_cos_sq x]
  have hhalf : 2 - 2 * Real.cos x = 4 * Real.sin (x / 2) ^ 2 := by
    have hc := Real.cos_two_mul (x / 2)
    rw [show 2 * (x / 2) = x by ring] at hc
    nlinarith [Real.sin_sq_add_cos_sq (x / 2)]
  have hb : Complex.abs (Complex.exp ((x : ℝ) * Complex.I) - 1) ^ 2 ≤ |x| ^ 2 := by
    rw [hsq, hhalf, sq_abs]
    have h1 : Real.sin (x / 2) ^ 2 ≤ (x / 2) ^ 2 := @Real.sin_sq_le_sq (x / 2)
    nlinarith
  exact le_of_pow_le_pow_left₀ two_ne_zero (abs_nonneg x) hb

theorem abs_exp_sub_exp_le (a b : ℝ) :
    Complex.abs (Complex.exp ((a : ℝ) * Complex.I) -
      Complex.exp ((b : ℝ) * Complex.I)) ≤ |a - b| := by
  have hfac : Complex.exp ((a : ℝ) * Complex.I) - Complex.exp ((b : ℝ) * Complex.I) =
      Complex.exp ((b : ℝ) * Complex.I) *
        (Complex.exp (((a - b : ℝ) : ℂ) * Complex.I) - 1) := by
    rw [mul_sub, mul_one, ← Complex.exp_add]
    congr 1
    push_cast
    ring
  rw [hfac, map_mul, Complex.abs_exp_ofReal_mul_I, one_mul]
  exact abs_exp_mul_I_sub_one_le (a - b)

theorem exp_two_pi_int_shift (x : ℝ) (n : ℤ) :
    Complex.exp (((x + n * (2 * Real.pi)) : ℝ) * Complex.I) =
      Complex.exp ((x : ℝ) * Complex.I) := by
  push_cast
  rw [add_mul, Complex.exp_add]
  rw [show ((n : ℂ) * (2 * (Real.pi : ℂ))) * Complex.I =
      (n : ℂ) * (2 * (Real.pi : ℂ) * Complex.I) by ring]
  rw [Complex.exp_int_mul_two_pi_mul_I, mul_one]

theorem exists_ring_index (R maxR r : ℝ) (hmax : 0 < maxR) (hr : maxR < r)
    (hrR : r ≤ R) :
    ∃ k : ℕ, 1 ≤ k ∧ k ≤ Nat.ceil (R / maxR) ∧
      |r - (k : ℝ) * maxR| ≤ maxR / 2 := by
  have hx1 : 1 < r / maxR := (one_lt_div hmax).2 hr
  have hround : |r / maxR - (round (r / maxR) : ℝ)| ≤ 1 / 2 := abs_sub_round _
  have habs := abs_le.1 hround
  have hpos : (0 : ℤ) < round (r / maxR) := by
    have h0 : (0 : ℝ) < (round (r / maxR) : ℝ) := by linarith [habs.2]
    exact_mod_cast h0
  refine ⟨(round (r / maxR)).toNat, by omega, ?_, ?_⟩
  · by_contra hcon
    push_neg at hcon
    have h2 : (Nat.ceil (R / maxR) : ℤ) + 1 ≤ round (r / maxR) := by omega
    have h3 : ((Nat.ceil (R / maxR) : ℝ)) + 1 ≤ (round (r / maxR) : ℝ) := by
      exact_mod_cast h2
    have h4 : (round (r / maxR) : ℝ) ≤ r / maxR + 1 / 2 := by linarith [habs.1]
    have h5 : r / maxR ≤ R / maxR := (div_le_div_iff_of_pos_right hmax).2 hrR
    have h6 : R / maxR ≤ (Nat.ceil (R / maxR) : ℝ) := Nat.le_ceil _
    linarith
  · have hcast : (((round (r / maxR)).toNat : ℕ) : ℝ) = (round (r / maxR) : ℝ) := by
      have h7 : (0 : ℤ) ≤ round (r / maxR) := hpos.le
      exact_mod_cast Int.toNat_of_nonneg h7
    rw [hcast]
    have heq : r - (round (r / maxR) : ℝ) * maxR =
        maxR * (r / maxR - (round (r / maxR) : ℝ)) := by
      field_simp
      ring
    rw [heq, abs_mul, abs_of_pos hmax]
    calc maxR * |r / maxR - (round (r / maxR) : ℝ)| ≤ maxR * (1 / 2) :=
          mul_le_mul_of_nonneg_left hround hmax.le
      _ = maxR / 2 := by ring

theorem ring_covers (c : ℂ) (maxR : ℝ) (hmax : 0 < maxR) (k : ℕ) (hk : 1 ≤ k)
    (p : ℂ) (hnear : |Complex.abs (p - c) - (k : ℝ) * maxR| ≤ maxR / 2) :
    ∃ z ∈ ringCenters c maxR k, Complex.abs (p - z) ≤ maxR := by
  have hpi := Real.pi_pos
  have hk1 : (1 : ℝ) ≤ (k : ℝ) := by exact_mod_cast hk
  have hMR : (0 : ℝ) < 7 * (k : ℝ) := by linarith
  have hMne : (7 : ℝ) * (k : ℝ) ≠ 0 := ne_of_gt hMR
  have hMZ : (0 : ℤ) < ((7 * k : ℕ) : ℤ) := by
    have : 0 < 7 * k := by omega
    exact_mod_cast this
  set r := Complex.abs (p - c) with hrdef
  set φ := Complex.arg (p - c) with hphidef
  have hpc : ((r : ℝ) : ℂ) * Complex.exp ((φ : ℝ) * Complex.I) = p - c :=
    Complex.abs_mul_exp_arg_mul_I (p - c)
  set t : ℝ := φ * (7 * (k : ℝ)) / (2 * Real.pi) with htdef
  set m0 : ℤ := round t with hm0def
  set q : ℤ := m0 / ((7 * k : ℕ) : ℤ) with hqdef
  set m1 : ℕ := (m0 % ((7 * k : ℕ) : ℤ)).toNat with hm1def
  have hm1nonneg : (0 : ℤ) ≤ m0 % ((7 * k : ℕ) : ℤ) :=
    Int.emod_nonneg m0 (ne_of_gt hMZ)
  have hm1ltZ : m0 % ((7 * k : ℕ) : ℤ) < ((7 * k : ℕ) : ℤ) :=
    Int.emod_lt_of_pos m0 hMZ
  have hm1lt : m1 < 7 * k := by omega
  have hm1cast : (m1 : ℝ) = (m0 : ℝ) - 7 * (k : ℝ) * (q : ℝ) := by
    have hint : (m1 : ℤ) = m0 - ((7 * k : ℕ) : ℤ) * q := by
      rw [hm1def, Int.toNat_of_nonneg hm1nonneg, hqdef, Int.emod_def]
    have := congrArg (Int.cast : ℤ → ℝ) hint
    push_cast at this
    linarith [this]
  refine ⟨c + ((k * maxR : ℝ) : ℂ) *
    Complex.exp ((2 * Real.pi * m1 / (7 * k) : ℝ) * Complex.I), ?_, ?_⟩
  · simp only [ringCenters, List.mem_map, List.mem_range]
    exact ⟨m1, hm1lt, rfl⟩
  · have hround : |t - (m0 : ℝ)| ≤ 1 / 2 := abs_sub_round t
    have hphi0 : |φ - 2 * Real.pi * (m0 : ℝ) / (7 * (k : ℝ))| ≤
        Real.pi / (7 * (k : ℝ)) := by
      have heq : φ - 2 * Real.pi * (m0 : ℝ) / (7 * (k : ℝ)) =
          (2 * Real.pi / (7 * (k : ℝ))) * (t - (m0 : ℝ)) := by
        rw [htdef]
        field_simp
        ring
      rw [heq, abs_mul, abs_of_pos (by positivity : (0 : ℝ) < 2 * Real.pi / (7 * (k : ℝ)))]
      calc (2 * Real.pi / (7 * (k : ℝ))) * |t - (m0 : ℝ)| ≤
            (2 * Real.pi / (7 * (k : ℝ))) * (1 / 2) :=
            mul_le_mul_of_nonneg_left hround (by positivity)
        _ = Real.pi / (7 * (k : ℝ)) := by ring
    have hangle : (2 * Real.pi * (m1 : ℝ) / (7 * (k : ℝ)) : ℝ) =
        2 * Real.pi * (m0 : ℝ) / (7 * (k : ℝ)) + (-q : ℤ) * (2 * Real.pi) := by
      push_cast
      rw [hm1cast]
      field_simp
      ring
    have hexpeq : Complex.exp ((2 * Real.pi * m1 / (7 * k) : ℝ) * Complex.I) =
        Complex.exp ((2 * Real.pi * (m0 : ℝ) / (7 * (k : ℝ)) : ℝ) * Complex.I) := by
      have harg : (2 * Real.pi * m1 / (7 * k) : ℝ) =
          (2 * Real.pi * (m0 : ℝ) / (7 * (k : ℝ)) + (-q : ℤ) * (2 * Real.pi) : ℝ) := by
        push_cast
        push_cast at hangle
        linarith [hangle]
      rw [harg]
      exact exp_two_pi_int_shift (2 * Real.pi * (m0 : ℝ) / (7 * (k : ℝ))) (-q)
    rw [hexpeq]
    have hz : p - (c + ((k * maxR : ℝ) : ℂ) *
        Complex.exp ((2 * Real.pi * (m0 : ℝ) / (7 * (k : ℝ)) : ℝ) * Complex.I)) =
        (((r - (k : ℝ) * maxR : ℝ)) : ℂ) * Complex.exp ((φ : ℝ) * Complex.I) +
        (((k : ℝ) * maxR : ℝ) : ℂ) *
          (Complex.exp ((φ : ℝ) * Complex.I) -
            Complex.exp ((2 * Real.pi * (m0 : ℝ) / (7 * (k : ℝ)) : ℝ) * Complex.I)) := by
      push_cast
      linear_combination (-1 : ℂ) * hpc
    rw [hz]
    have hkR0 : (0 : ℝ) ≤ (k : ℝ) * maxR := by positivity
    have hA : Complex.abs ((((r - (k : ℝ) * maxR : ℝ)) : ℂ) *
        Complex.exp ((φ : ℝ) * Complex.I)) ≤ maxR / 2 := by
      rw [map_mul, Complex.abs_exp_ofReal_mul_I, mul_one, Complex.abs_ofReal]
      exact hnear
    have hB : Complex.abs ((((k : ℝ) * maxR : ℝ) : ℂ) *
        (Complex.exp ((φ : ℝ) * Complex.I) -
          Complex.exp ((2 * Real.pi * (m0 : ℝ) / (7 * (k : ℝ)) : ℝ) * Complex.I))) ≤
        (k : ℝ) * maxR * (Real.pi / (7 * (k : ℝ))) := by
      rw [map_mul, Complex.abs_ofReal, abs_of_nonneg hkR0]
      refine mul_le_mul_of_nonneg_left ?_ hkR0
      exact (abs_exp_sub_exp_le φ (2 * Real.pi * (m0 : ℝ) / (7 * (k : ℝ)))).trans hphi0
    have hksim : (k : ℝ) * maxR * (Real.pi / (7 * (k : ℝ))) = maxR * Real.pi / 7 := by
      field_simp
      ring
    have hfinal : maxR / 2 + (k : ℝ) * maxR * (Real.pi / (7 * (k : ℝ))) ≤ maxR := by
      rw [hksim]
      nlinarith [Real.pi_lt_d2, hmax]
    calc Complex.abs ((((r - (k : ℝ) * maxR : ℝ)) : ℂ) *
          Complex.exp ((φ : ℝ) * Complex.I) +
          (((k : ℝ) * maxR : ℝ) : ℂ) *
            (Complex.exp ((φ : ℝ) * Complex.I) -
              Complex.exp ((2 * Real.pi * (m0 : ℝ) / (7 * (k : ℝ)) : ℝ) * Complex.I))) ≤
          Complex.abs ((((r - (k : ℝ) * maxR : ℝ)) : ℂ) *
            Complex.exp ((φ : ℝ) * Complex.I)) +
          Complex.abs ((((k : ℝ) * maxR : ℝ) : ℂ) *
            (Complex.exp ((φ : ℝ) * Complex.I) -
              Complex.exp ((2 * Real.pi * (m0 : ℝ) / (7 * (k : ℝ)) : ℝ) * Complex.I))) :=
          Complex.abs.add_le _ _
      _ ≤ maxR / 2 + (k : ℝ) * maxR * (Real.pi / (7 * (k : ℝ))) := add_le_add hA hB
      _ ≤ maxR := hfinal

/-- C7: for every target, desired radius and source maximum radius
(`0 < maxR`), the Spatial Query Expander returns the single original query
unchanged when `R ≤ maxR`; when `R > maxR`, every emitted sub-query has
sub-radius at most `maxR` and the union of the sub-query discs covers the
whole requested disc of radius `R` (no gaps). -/
theorem expander_single_or_covering (c : ℂ) (R maxR : ℝ) (hmax : 0 < maxR) :
    (R ≤ maxR → expandQuery c R maxR = [(c, R)]) ∧
    (maxR < R →
      (∀ sq ∈ expandQuery c R maxR, sq.2 ≤ maxR) ∧
      (∀ p : ℂ, Complex.abs (p - c) ≤ R →
        ∃ sq ∈ expandQuery c R maxR, Complex.abs (p - sq.1) ≤ sq.2)) := by
  constructor
  · intro h
    simp [expandQuery, h]
  · intro h
    have hnle : ¬R ≤ maxR := not_le.2 h
    constructor
    · intro sq hsq
      simp only [expandQuery, if_neg hnle, List.mem_cons, List.mem_flatMap,
        List.mem_map, List.mem_range] at hsq
      rcases hsq with rfl | ⟨k0, _, z, _, rfl⟩
      · exact le_rfl
      · exact le_rfl
    · intro p hp
      by_cases hcase : Complex.abs (p - c) ≤ maxR
      · refine ⟨(c, maxR), ?_, hcase⟩
        simp [expandQuery, if_neg hnle]
      · push_neg at hcase
        obtain ⟨k, hk1, hkK, hnear⟩ :=
          exists_ring_index R maxR (Complex.abs (p - c)) hmax hcase hp
        obtain ⟨z, hz, hdist⟩ := ring_covers c maxR hmax k hk1 p hnear
        refine ⟨(z, maxR), ?_, hdist⟩
        simp only [expandQuery, if_neg hnle, List.mem_cons, List.mem_flatMap,
          List.mem_map, List.mem_range]
        right
        refine ⟨k - 1, by omega, z, ?_, rfl⟩
        rw [Nat.sub_add_cancel hk1]
        exact hz

/-- Witness for C7 in the pass-through case at concrete inputs. -/
theorem expander_single_or_covering_witness :
    expandQuery 0 1 2 = [(0, 1)] :=
  (expander_single_or_covering 0 1 2 (by norm_num)).1 (by norm_num)
